import Mathlib

/-!
Verification of the asset model of `repository/models/asset.py`
(identifier validation, identifier append pipeline, identifier
normalisation, the id-list UNION query compiler, and the paged change
feed).

The Python module is embedded shallowly:

* Python strings are Lean `String`s; `str.lower()` is modelled with the
  ASCII lower-casing `Char.toLower` (the identifiers and references the
  module handles are ASCII).
* Python dicts of identifiers (`{'source_id_type': ..., 'source_id': ...}`)
  are records of two `Option String` fields: `none` models an absent key,
  `some ""` an empty value.  A `KeyError` raised by `d['k']` is modelled
  by `Except` with a `PyErr.keyError`.
* The asynchronous store is modelled by the trace of calls a coroutine
  issues (`StoreCall`): `repository.update q` and
  `insert_timestamps [id]` become trace elements, so "performs no store
  mutation" is "the trace is empty".
* `uuid.uuid4()` is modelled by a supply `Nat → String`: the n-th call
  returns `supply n`.  Global uniqueness of UUIDs is the injectivity of
  the supply.
-/

/-- ASCII lower-casing of a string, modelling Python `str.lower()` on the
ASCII strings this module manipulates (`Char.toLower` is exactly the
ASCII mapping). -/
def pyLower (s : String) : String :=
  ⟨s.data.map Char.toLower⟩

/-- Boolean list-level starts-with test (Python `str.startswith`). -/
def startsw : List Char → List Char → Bool
  | [], _ => true
  | _ :: _, [] => false
  | c :: p, d :: s => c == d && startsw p s

/-- Python `s.startswith(p)`. -/
def pyStartswith (p s : String) : Bool :=
  startsw p.data s.data

/-- Python slice `s[n:]` (by characters). -/
def pyDrop (n : Nat) (s : String) : String :=
  ⟨s.data.drop n⟩

/-- The characters after the last slash, i.e. Python `s.split('/')[-1]`. -/
def afterLastSlash (l : List Char) : List Char :=
  l.foldl (fun acc c => if c = '/' then [] else acc ++ [c]) []

/-- Python `s.split('/')[-1]`. -/
def lastSegment (s : String) : String :=
  ⟨afterLastSlash s.data⟩

/-- Python `sep.join(l)`. -/
def joinSep (sep : String) : List String → String
  | [] => ""
  | [s] => s
  | s :: t :: rest => s ++ sep ++ joinSep sep (t :: rest)

/-- Concatenation of a list of strings (Python `+=` accumulation). -/
def concatAll : List String → String
  | [] => ""
  | s :: rest => s ++ concatAll rest

/-- Last element of a list with a default (Python `l[-1]` where the list
is known non-empty; the default is only a totalisation device). -/
def lastD {α : Type} (d : α) : List α → α
  | [] => d
  | [a] => a
  | _ :: b :: t => lastD d (b :: t)

/-- A Python identifier dictionary: the two keys the module reads.
`none` models an absent key, `some ""` an empty value. -/
structure IdDict where
  source_id_type : Option String
  source_id : Option String
deriving DecidableEq

/-- Python exceptions raised by the embedded code. -/
inductive PyErr where
  | valueError (msg : String)
  | keyError (key : String)
deriving DecidableEq

/-- A call issued to the triple store or to the timestamp-bookkeeping
collaborator; the model of one store side effect. -/
inductive StoreCall where
  | update (query : String)
  | insertTimestamps (ids : List String)
deriving DecidableEq

/-- Python truthiness test `not data_id.get(k)`: true when the key is
absent or its value is the empty string. -/
def pyFalsy (o : Option String) : Bool :=
  (o.getD "") == ""

/-- The validation loop of `_validate_ids` with its running 0-based
index (`for index, data_id in enumerate(ids)`). -/
def validateFrom : Nat → List IdDict → List String
  | _, [] => []
  | n, d :: rest =>
    (if pyFalsy d.source_id_type then
       ["Missing source_id_type for entry:" ++ Nat.repr (n + 1)] else [])
    ++ (if pyFalsy d.source_id then
       ["Missing source_id for entry:" ++ Nat.repr (n + 1)] else [])
    ++ validateFrom (n + 1) rest

/-- `_validate_ids(ids)`: check the list of id dictionaries for
`source_id` and `source_id_type` keys, returning a list of errors. -/
def _validate_ids (ids : List IdDict) : List String :=
  validateFrom 0 ids

/-- The errors one positioned element contributes, in the words of the
specification: one message per missing or empty `source_id_type`, one
per missing or empty `source_id`, keyed by the 1-based position. -/
def entryErrors (p : Nat × IdDict) : List String :=
  (if pyFalsy p.2.source_id_type then
     ["Missing source_id_type for entry:" ++ Nat.repr (p.1 + 1)] else [])
  ++ (if pyFalsy p.2.source_id then
     ["Missing source_id for entry:" ++ Nat.repr (p.1 + 1)] else [])

/-- The specification's description of validation, written from its
words: examine every element and collect every element's errors. -/
def validationErrorsSpec (ids : List IdDict) : List String :=
  (ids.enum.map entryErrors).flatten

/-- Modelled from the spec: `PREFIXES['id']` of `queries/generic.py` is
not under `src/`; the spec calls it "the store's identifier-namespace
prefix", modelled as the id namespace IRI of the platform. -/
def PREFIXES_id : String :=
  "http://openpermissions.org/ns/id/"

/-- Is the character one of `0123456789abcdef`? -/
def isHexLower (c : Char) : Bool :=
  (c.isDigit) || ('a' ≤ c && c ≤ 'f')

/-- Modelled from the spec: `re.match("id:" + ENTITY_ID_REGEX, s)` where
`ENTITY_ID_REGEX` of `framework/entity.py` is not under `src/`; the spec
describes the canonical form as `id:<token>` with a UUID-shaped token,
modelled as 32 lowercase hex digits.  Like `re.match`, the pattern is
anchored at the start only. -/
def reMatchEntityId (s : String) : Bool :=
  startsw "id:".data s.data
    && 32 ≤ (s.data.drop 3).length
    && ((s.data.drop 3).take 32).all isHexLower

/-- Modelled from the spec: `build_uuid_reference` of
`framework/entity.py` is not under `src/`; the spec says a raw
UUID-like value is deterministically wrapped into the canonical
`id:`-prefixed form, never rejected. -/
def build_uuid_reference (s : String) : String :=
  "id:" ++ s

/-- Modelled from the spec: `build_hub_reference` of
`framework/entity.py` is not under `src/`; it renders a
`source_id_type` as a hub-namespace reference. -/
def build_hub_reference (s : String) : String :=
  "hub:" ++ s

/-- One escaped character of a SPARQL string literal. -/
def sparqlEscapeChar (c : Char) : List Char :=
  if c = '"' ∨ c = '\\' then ['\\', c] else [c]

/-- Modelled from the spec: `build_sparql_str` of `framework/entity.py`
is not under `src/`; it renders a value as an escaped string literal
embeddable in a query. -/
def build_sparql_str (s : String) : String :=
  "\"" ++ String.mk (s.data.flatMap sparqlEscapeChar) ++ "\""

/-- `Asset.normalise_id(entity_id)`: strip the id-namespace IRI if
present, lower-case, and wrap anything that does not already match the
canonical `id:` pattern. -/
def Asset.normalise_id (entity_id : String) : String :=
  let e1 := if pyStartswith PREFIXES_id entity_id then
              pyDrop PREFIXES_id.length entity_id
            else entity_id
  let e2 := pyLower e1
  if reMatchEntityId e2 then e2 else build_uuid_reference e2

/-- Characters Python 2 `urllib.quote` never encodes (letters, digits,
underscore, dot, dash). -/
def pyAlwaysSafe (c : Char) : Bool :=
  c.isAlphanum || c = '_' || c = '.' || c = '-'

/-- Upper-case hex digit of `n % 16`. -/
def hexDigitChar (n : Nat) : Char :=
  if n % 16 < 10 then Char.ofNat (48 + n % 16) else Char.ofNat (55 + n % 16)

/-- Percent-encoding of one character (`%XX`, upper-case hex), on the
code point (the module's inputs are single-byte characters). -/
def percentEncode (c : Char) : List Char :=
  ['%', hexDigitChar (c.toNat / 16), hexDigitChar c.toNat]

/-- Python 2 `urllib.quote_plus`: keep the always-safe characters, turn
a space into `+`, percent-encode everything else. -/
def quote_plus (s : String) : String :=
  ⟨s.data.flatMap (fun c =>
    if pyAlwaysSafe c then [c]
    else if c = ' ' then ['+']
    else percentEncode c)⟩

/-- Left brace as text. -/
def obr : String := "\x7b"

/-- Right brace as text. -/
def cbr : String := "\x7d"

/-- Python `"{\n%s}\n" % s`, the grouping wrapper used by the query
compiler. -/
def pyGroup (s : String) : String :=
  obr ++ "\n" ++ s ++ cbr ++ "\n"

/-- Modelled from the spec: the `SPARQL_PREFIXES` constant of
`queries/generic.py` is not under `src/`; a fixed preamble of namespace
declarations. -/
def SPARQL_PREFIXES : String :=
  "PREFIX op: <http://openpermissions.org/ns/op/1.1/>\nPREFIX id: <http://openpermissions.org/ns/id/>\nPREFIX hub: <http://openpermissions.org/ns/hub/>\n"

/-- Modelled from the spec: the `INSERT_DATA` template of
`queries/generic.py` is not under `src/`; `INSERT_DATA % q` wraps the
statements into one insert-data update. -/
def INSERT_DATA (q : String) : String :=
  "INSERT DATA " ++ obr ++ "\n" ++ q ++ cbr ++ "\n"

/-- Modelled from the spec: the `ASSET_APPEND_ALSO_IDENTIFIED` template
of `queries/asset.py` is not under `src/`; one write statement linking
the normalised entity to one identifier through a fresh blank node. -/
def ASSET_APPEND_ALSO_IDENTIFIED (entity_id source_id_type source_id_value bnodeuuid0 : String) : String :=
  entity_id ++ " op:alsoIdentifiedBy _:b" ++ bnodeuuid0 ++ " .\n_:b" ++ bnodeuuid0
    ++ " op:id_type " ++ source_id_type ++ " ;\n op:value " ++ source_id_value ++ " .\n"

/-- Modelled from the spec: the `ASSET_SELECT_BY_ENTITY_ID` template of
`queries/asset.py` is not under `src/`; a sub-fragment selecting the
alias from an explicit list of normalised entity references. -/
def ASSET_SELECT_BY_ENTITY_ID (idname idlist : String) : String :=
  "VALUES (?" ++ idname ++ ") " ++ obr ++ "\n" ++ idlist ++ "\n" ++ cbr ++ "\n"

/-- Modelled from the spec: the `ASSET_SELECT_BY_SOURCE_ID` template of
`queries/asset.py` is not under `src/`; a sub-fragment selecting the
alias from a list of `(type value)` pairs via the also-identified
relation. -/
def ASSET_SELECT_BY_SOURCE_ID (idname idlist : String) : String :=
  "VALUES (?source_id_type ?source_id_value) " ++ obr ++ "\n" ++ idlist ++ "\n" ++ cbr
    ++ "\n?" ++ idname ++ " op:alsoIdentifiedBy ?bnode .\n"

/-- The query-accumulation loop of `_insert_ids`: one
`ASSET_APPEND_ALSO_IDENTIFIED` statement per identifier, each formatted
with the next fresh uuid (`supply` models `uuid.uuid4()`, `n` is the
number of uuids drawn so far); a missing key raises `KeyError` exactly
where the Python subscript would. -/
def buildStatements (entity_id : String) (supply : Nat → String) :
    Nat → List IdDict → Except PyErr String
  | _, [] => .ok ""
  | n, d :: rest =>
    match d.source_id_type with
    | none => .error (.keyError "source_id_type")
    | some t =>
      match d.source_id with
      | none => .error (.keyError "source_id")
      | some v => do
        let q ← buildStatements entity_id supply (n + 1) rest
        .ok (ASSET_APPEND_ALSO_IDENTIFIED (Asset.normalise_id entity_id)
              (build_hub_reference t) (build_sparql_str v) (supply n) ++ q)

/-- `_insert_ids(repository, entity_id, ids)`: no-op on an empty list,
otherwise one batched `INSERT DATA` update built from one append
statement per identifier.  The returned trace is the list of store
calls issued. -/
def _insert_ids (entity_id : String) (ids : List IdDict) (supply : Nat → String) :
    Except PyErr (List StoreCall) :=
  if ids.isEmpty then .ok []
  else do
    let q ← buildStatements entity_id supply 0 ids
    .ok [.update (SPARQL_PREFIXES ++ INSERT_DATA q)]

/-- `add_ids(repository, entity_id, ids)`: validate, and only when the
list is non-empty and error-free insert the identifiers and refresh the
entity's timestamp.  Returns the error list and the trace of store
calls. -/
def add_ids (entity_id : String) (ids : List IdDict) (supply : Nat → String) :
    Except PyErr (List String × List StoreCall) :=
  let errors := _validate_ids ids
  if ¬ids.isEmpty ∧ errors.isEmpty then do
    let trace ← _insert_ids entity_id ids supply
    .ok (errors, trace ++ [.insertTimestamps [entity_id]])
  else .ok (errors, [])

/-- The eager Python `filter` over the `source_id_type` key: `want =
true` keeps the entries equal to `"hub_key"`, `want = false` the
others; a missing key raises `KeyError` at the first offending
element. -/
def filterByType (want : Bool) : List IdDict → Except PyErr (List IdDict)
  | [] => .ok []
  | d :: rest =>
    match d.source_id_type with
    | none => .error (.keyError "source_id_type")
    | some t => do
      let ds ← filterByType want rest
      .ok (if (t == "hub_key") == want then d :: ds else ds)

/-- The hub-key value list of the compiler: `"(%s)" %
normalise_id(hk['source_id'])` for each entry. -/
def hubValues : List IdDict → Except PyErr (List String)
  | [] => .ok []
  | d :: rest =>
    match d.source_id with
    | none => .error (.keyError "source_id")
    | some s => do
      let l ← hubValues rest
      .ok (("(" ++ Asset.normalise_id s ++ ")") :: l)

/-- The foreign-id value list of the compiler: `"(%s %s)"` over the
hub reference of the percent-encoded type and the string literal of the
percent-encoded value. -/
def otherValues : List IdDict → Except PyErr (List String)
  | [] => .ok []
  | d :: rest =>
    match d.source_id_type with
    | none => .error (.keyError "source_id_type")
    | some t =>
      match d.source_id with
      | none => .error (.keyError "source_id")
      | some v => do
        let l ← otherValues rest
        .ok (("(" ++ build_hub_reference (quote_plus t) ++ " "
               ++ build_sparql_str (quote_plus v) ++ ")") :: l)

/-- `Asset.asset_subselect_idlist(idlist, idname)`: guard against the
empty list, partition into hub keys and other ids, build one
sub-fragment per non-empty partition, join them with UNION and wrap the
whole in one group. -/
def Asset.asset_subselect_idlist (idlist : List IdDict) (idname : String) :
    Except PyErr String :=
  if idlist.length = 0 then .error (.valueError "Invalid asset list")
  else do
    let hub_keys ← filterByType true idlist
    let otherids ← filterByType false idlist
    let sub1 ← if 0 < hub_keys.length then do
        let idl ← hubValues hub_keys
        pure [pyGroup (ASSET_SELECT_BY_ENTITY_ID idname (joinSep "\n" idl))]
      else pure ([] : List String)
    let sub2 ← if 0 < otherids.length then do
        let idl ← otherValues otherids
        pure [pyGroup (ASSET_SELECT_BY_SOURCE_ID idname (joinSep "\n" idl))]
      else pure ([] : List String)
    pure (pyGroup (joinSep " UNION " (sub1 ++ sub2)))

/-- The fixed positional field order of the paged change feed. -/
def FIELDS : List String :=
  ["entity_uri", "source_id", "source_id_type", "last_modified"]

/-- Python dict lookup `d.get(k)` over the association-list model. -/
def pyGet (k : String) : List (String × String) → Option String
  | [] => none
  | (k', v) :: rest => if k' = k then some v else pyGet k rest

/-- Python dict assignment `d[k] = v` over the association-list model. -/
def pySet (k v : String) : List (String × String) → List (String × String)
  | [] => [(k, v)]
  | (k', v') :: rest => if k' = k then (k, v) :: rest else (k', v') :: pySet k v rest

/-- One iteration of the result loop of `retrieve_paged_assets`:
`dict(zip(fields, x))`, then derive `entity_id` and shorten
`source_id_type`; subscripting a missing key raises `KeyError`. -/
def processRecord (row : List String) : Except PyErr (List (String × String)) :=
  let d := FIELDS.zip row
  match pyGet "entity_uri" d with
  | none => .error (.keyError "entity_uri")
  | some uri =>
    let d1 := pySet "entity_id" (lastSegment uri) d
    match pyGet "source_id_type" d1 with
    | none => .error (.keyError "source_id_type")
    | some t => .ok (pySet "source_id_type" (lastSegment t) d1)

/-- The result loop of `retrieve_paged_assets` over all rows, stopping
at the first `KeyError` as the Python loop would. -/
def processAll : List (List String) → Except PyErr (List (List (String × String)))
  | [] => .ok []
  | row :: rest => do
    let d ← processRecord row
    let ds ← processAll rest
    .ok (d :: ds)

/-- The warning logged when the first record lacks `last_modified`. -/
def WARN_NO_LAST_MODIFIED : String :=
  "last_modified not present: invalid query - check named queries"

/-- The modified range returned by the paged change feed: the Python
empty tuple `()` or the pair of timestamps. -/
inductive MRange where
  | empty
  | range (lo hi : String)
deriving DecidableEq

/-- `retrieve_paged_assets` after the store reply `query_result`: empty
reply short-circuits to `([], ())`; otherwise every row is mapped onto
`FIELDS`, the warning is logged if the first record lacks
`last_modified`, and the modified range is read off the first and last
records (raising `KeyError` when absent).  The first component is the
log of warnings emitted before returning or raising. -/
def retrieve_paged_assets (query_result : List (List String)) :
    List String × Except PyErr (List (List (String × String)) × MRange) :=
  if query_result.isEmpty then ([], .ok ([], .empty))
  else
    match processAll query_result with
    | .error e => ([], .error e)
    | .ok results =>
      let logs := if pyGet "last_modified" (results.headD []) = none then
                    [WARN_NO_LAST_MODIFIED] else []
      match pyGet "last_modified" (results.headD []),
            pyGet "last_modified" (lastD [] results) with
      | some a, some b => (logs, .ok (results, .range a b))
      | _, _ => (logs, .error (.keyError "last_modified"))

/-! Lemmas about validation. -/

theorem validateFrom_eq (ids : List IdDict) : ∀ n,
    validateFrom n ids = ((List.enumFrom n ids).map entryErrors).flatten := by
  induction ids with
  | nil => intro n; rfl
  | cons d rest ih =>
    intro n
    simp [validateFrom, List.enumFrom, entryErrors, ih (n + 1)]

theorem validateFrom_eq_nil_iff (ids : List IdDict) : ∀ n,
    (validateFrom n ids = [] ↔
      ∀ d ∈ ids, pyFalsy d.source_id_type = false ∧ pyFalsy d.source_id = false) := by
  induction ids with
  | nil => intro n; simp [validateFrom]
  | cons d rest ih =>
    intro n
    cases h1 : pyFalsy d.source_id_type <;> cases h2 : pyFalsy d.source_id <;>
      simp [validateFrom, h1, h2, ih (n + 1)]

theorem mem_validateFrom_type (ids : List IdDict) : ∀ n i (h : i < ids.length),
    pyFalsy (ids.get ⟨i, h⟩).source_id_type = true →
    ("Missing source_id_type for entry:" ++ Nat.repr (n + i + 1)) ∈ validateFrom n ids := by
  induction ids with
  | nil => intro n i h; exact absurd h (by simp)
  | cons d rest ih =>
    intro n i h hb
    match i with
    | 0 =>
      simp only [List.get] at hb
      simp [validateFrom, hb]
    | j + 1 =>
      have := ih (n + 1) j (by simpa using Nat.lt_of_succ_lt_succ h)
        (by simpa using hb)
      have harith : n + 1 + j + 1 = n + (j + 1) + 1 := by omega
      rw [harith] at this
      simp [validateFrom]
      right; right; exact this

theorem mem_validateFrom_id (ids : List IdDict) : ∀ n i (h : i < ids.length),
    pyFalsy (ids.get ⟨i, h⟩).source_id = true →
    ("Missing source_id for entry:" ++ Nat.repr (n + i + 1)) ∈ validateFrom n ids := by
  induction ids with
  | nil => intro n i h; exact absurd h (by simp)
  | cons d rest ih =>
    intro n i h hb
    match i with
    | 0 =>
      simp only [List.get] at hb
      simp [validateFrom, hb]
    | j + 1 =>
      have := ih (n + 1) j (by simpa using Nat.lt_of_succ_lt_succ h)
        (by simpa using hb)
      have harith : n + 1 + j + 1 = n + (j + 1) + 1 := by omega
      rw [harith] at this
      simp [validateFrom]
      right; right; exact this

/-- C8: `_validate_ids` examines every element without short-circuiting
and returns one error per missing or empty `source_id_type` and one per
missing or empty `source_id`, each keyed by the element's 1-based
position (the positional collection `validationErrorsSpec` written from
the spec's words); a list whose elements all carry both non-empty
fields yields the empty error list. -/
theorem validate_ids_positional (ids : List IdDict) :
    _validate_ids ids = validationErrorsSpec ids ∧
    ((∀ d ∈ ids, pyFalsy d.source_id_type = false ∧ pyFalsy d.source_id = false) →
      _validate_ids ids = []) := by
  constructor
  · rw [_validate_ids, validationErrorsSpec, validateFrom_eq]
    rfl
  · intro h
    exact (validateFrom_eq_nil_iff ids 0).2 h

/-- Witness for C8 at the spec's own example: one entry missing the
type, one missing the id. -/
theorem validate_ids_positional_witness :
    _validate_ids [⟨none, some "a"⟩, ⟨some "t", none⟩] =
      validationErrorsSpec [⟨none, some "a"⟩, ⟨some "t", none⟩] ∧
    _validate_ids [⟨some "t", some "a"⟩] = [] := by
  refine ⟨(validate_ids_positional [⟨none, some "a"⟩, ⟨some "t", none⟩]).1, ?_⟩
  exact (validate_ids_positional [⟨some "t", some "a"⟩]).2 (by decide)

/-- C10: an element missing (or empty in) both fields contributes two
distinct error messages that reference the same 1-based position, so
the error list of `_validate_ids` can be longer than its input. -/
theorem validate_ids_two_errors_per_entry :
    (∀ (ids : List IdDict) (i : Nat) (h : i < ids.length),
      pyFalsy (ids.get ⟨i, h⟩).source_id_type = true →
      pyFalsy (ids.get ⟨i, h⟩).source_id = true →
      ("Missing source_id_type for entry:" ++ Nat.repr (i + 1)) ∈ _validate_ids ids ∧
      ("Missing source_id for entry:" ++ Nat.repr (i + 1)) ∈ _validate_ids ids ∧
      ("Missing source_id_type for entry:" ++ Nat.repr (i + 1)) ≠
        ("Missing source_id for entry:" ++ Nat.repr (i + 1))) ∧
    (∃ ids : List IdDict, ids.length < (_validate_ids ids).length) := by
  constructor
  · intro ids i h h1 h2
    refine ⟨?_, ?_, ?_⟩
    · have := mem_validateFrom_type ids 0 i h h1
      simpa [_validate_ids] using this
    · have := mem_validateFrom_id ids 0 i h h2
      simpa [_validate_ids] using this
    · intro heq
      have hl := congrArg String.length heq
      rw [String.length_append, String.length_append,
        show ("Missing source_id_type for entry:").length = 33 from rfl,
        show ("Missing source_id for entry:").length = 28 from rfl] at hl
      omega
  · exact ⟨[⟨none, none⟩], by decide⟩

/-- Witness for C10: the doubly-malformed singleton list yields both
messages for position 1 and more errors than entries. -/
theorem validate_ids_two_errors_per_entry_witness :
    ("Missing source_id_type for entry:" ++ Nat.repr 1) ∈ _validate_ids [⟨none, none⟩] ∧
    ("Missing source_id for entry:" ++ Nat.repr 1) ∈ _validate_ids [⟨none, none⟩] ∧
    ("Missing source_id_type for entry:" ++ Nat.repr 1) ≠
      ("Missing source_id for entry:" ++ Nat.repr 1) := by
  have h := validate_ids_two_errors_per_entry.1 [⟨none, none⟩] 0 (by decide)
    (by decide) (by decide)
  exact h

/-! Lemmas about lower-casing and the normaliser. -/

theorem toNat_ofNat_valid {n : Nat} (h : n.isValidChar) : (Char.ofNat n).toNat = n := by
  rw [Char.ofNat, dif_pos h]
  rfl

theorem toLower_idem (c : Char) : Char.toLower (Char.toLower c) = Char.toLower c := by
  unfold Char.toLower
  by_cases h : c.toNat ≥ 65 ∧ c.toNat ≤ 90
  · rw [if_pos h]
    have hv : (c.toNat + 32).isValidChar := Or.inl (by omega)
    have ht : (Char.ofNat (c.toNat + 32)).toNat = c.toNat + 32 := toNat_ofNat_valid hv
    rw [if_neg (by rw [ht]; omega)]
  · rw [if_neg h, if_neg h]

theorem pyLower_idem (s : String) : pyLower (pyLower s) = pyLower s := by
  show String.mk ((s.data.map Char.toLower).map Char.toLower) = String.mk (s.data.map Char.toLower)
  rw [List.map_map]
  exact congrArg String.mk (List.map_congr_left fun c _ => toLower_idem c)

theorem pyLower_append (a b : String) : pyLower (a ++ b) = pyLower a ++ pyLower b := by
  cases a with
  | mk da =>
    cases b with
    | mk db =>
      show String.mk ((da ++ db).map Char.toLower)
        = String.mk (da.map Char.toLower ++ db.map Char.toLower)
      rw [List.map_append]

theorem pyLower_pyDrop (n : Nat) (s : String) :
    pyLower (pyDrop n s) = pyDrop n (pyLower s) := by
  show String.mk ((s.data.drop n).map Char.toLower)
    = String.mk ((s.data.map Char.toLower).drop n)
  rw [List.map_drop]

theorem startsw_head {c : Char} {p l : List Char} (h : startsw (c :: p) l = true) :
    ∃ t, l = c :: t ∧ startsw p t = true := by
  cases l with
  | nil => simp [startsw] at h
  | cons d t =>
    simp only [startsw, Bool.and_eq_true, beq_iff_eq] at h
    exact ⟨t, by rw [h.1], h.2⟩

theorem reMatch_head {s : String} (h : reMatchEntityId s = true) :
    ∃ t, s.data = 'i' :: t := by
  rw [reMatchEntityId, Bool.and_eq_true, Bool.and_eq_true] at h
  obtain ⟨t, ht, _⟩ := startsw_head h.1.1
  exact ⟨_, ht⟩

theorem not_startswith_of_reMatch {s : String} (h : reMatchEntityId s = true) :
    pyStartswith PREFIXES_id s = false := by
  obtain ⟨t, ht⟩ := reMatch_head h
  rw [pyStartswith, ht]
  rw [show PREFIXES_id.data = 'h' :: "ttp://openpermissions.org/ns/id/".data from rfl]
  simp [startsw, show (('h' : Char) == 'i') = false from rfl]

theorem normalise_shape (x : String) : Asset.normalise_id x =
    (if reMatchEntityId (pyLower (if pyStartswith PREFIXES_id x then
          pyDrop PREFIXES_id.length x else x)) then
       pyLower (if pyStartswith PREFIXES_id x then pyDrop PREFIXES_id.length x else x)
     else build_uuid_reference (pyLower (if pyStartswith PREFIXES_id x then
          pyDrop PREFIXES_id.length x else x))) := rfl

theorem pyLower_normalise_id (x : String) :
    pyLower (Asset.normalise_id x) = Asset.normalise_id x := by
  rw [normalise_shape]
  set s := pyLower (if pyStartswith PREFIXES_id x then pyDrop PREFIXES_id.length x else x)
    with hs
  have hls : pyLower s = s := by rw [hs]; exact pyLower_idem _
  cases hm : reMatchEntityId s with
  | true => simpa using hls
  | false =>
    simp only [Bool.false_eq_true, if_false]
    rw [build_uuid_reference, pyLower_append, hls]
    rw [show pyLower "id:" = "id:" from rfl]

/-- C3 is false on the code as written: normalising a value that is not
UUID-shaped wraps it, and normalising the wrapped form wraps it again. -/
theorem normalise_id_not_idempotent :
    Asset.normalise_id (Asset.normalise_id "zz") ≠ Asset.normalise_id "zz" := by
  decide

/-- C3 (amended): `normalise_id` is idempotent on every input whose
normal form matches the canonical `id:` pattern — in particular every
already-canonical lower-case reference and every raw UUID token. -/
theorem normalise_id_idem_of_canonical (x : String)
    (h : reMatchEntityId (Asset.normalise_id x) = true) :
    Asset.normalise_id (Asset.normalise_id x) = Asset.normalise_id x := by
  have h1 := not_startswith_of_reMatch h
  have h2 := pyLower_normalise_id x
  rw [normalise_shape (Asset.normalise_id x)]
  simp only [h1, Bool.false_eq_true, if_false, h2, h, if_true]

/-- Witness for C3 at a raw 32-hex UUID token. -/
theorem normalise_id_idem_of_canonical_witness :
    reMatchEntityId (Asset.normalise_id "aaaaaaaaaaaaaaaaaaaaaaaaaaaaaaaa") = true ∧
    Asset.normalise_id (Asset.normalise_id "aaaaaaaaaaaaaaaaaaaaaaaaaaaaaaaa") =
      Asset.normalise_id "aaaaaaaaaaaaaaaaaaaaaaaaaaaaaaaa" :=
  ⟨by decide, normalise_id_idem_of_canonical "aaaaaaaaaaaaaaaaaaaaaaaaaaaaaaaa" (by decide)⟩

/-- C4 is false on the code as written: the namespace prefix is
stripped before lower-casing, so an upper-cased prefix is not
stripped while the lower-cased input's prefix is. -/
theorem normalise_id_not_case_insensitive :
    Asset.normalise_id "HTTP://OPENPERMISSIONS.ORG/NS/ID/ZZ" ≠
      Asset.normalise_id (pyLower "HTTP://OPENPERMISSIONS.ORG/NS/ID/ZZ") := by
  decide

/-- C4 (amended): `normalise_id X = normalise_id (lowercase X)` for
every `X` on which prefix-stripping is unaffected by the lower-casing,
i.e. whenever `X` starts with the id-namespace prefix exactly when
`lowercase X` does. -/
theorem normalise_id_case_insensitive_of_strip_agrees (X : String)
    (h : pyStartswith PREFIXES_id X = pyStartswith PREFIXES_id (pyLower X)) :
    Asset.normalise_id X = Asset.normalise_id (pyLower X) := by
  rw [normalise_shape X, normalise_shape (pyLower X)]
  suffices hs : pyLower (if pyStartswith PREFIXES_id X then
        pyDrop PREFIXES_id.length X else X)
      = pyLower (if pyStartswith PREFIXES_id (pyLower X) then
        pyDrop PREFIXES_id.length (pyLower X) else pyLower X) by
    rw [hs]
  cases hb : pyStartswith PREFIXES_id X with
  | false =>
    have hb2 : pyStartswith PREFIXES_id (pyLower X) = false := h.symm.trans hb
    simp only [hb, hb2, Bool.false_eq_true, if_false]
    exact (pyLower_idem X).symm
  | true =>
    have hb2 : pyStartswith PREFIXES_id (pyLower X) = true := h.symm.trans hb
    simp only [hb, hb2, if_true]
    rw [← pyLower_pyDrop, pyLower_idem]

/-- Witness for C4 at an input containing upper-case letters but no
prefix interference. -/
theorem normalise_id_case_insensitive_witness :
    pyStartswith PREFIXES_id "ABC" = pyStartswith PREFIXES_id (pyLower "ABC") ∧
    Asset.normalise_id "ABC" = Asset.normalise_id (pyLower "ABC") :=
  ⟨by decide, normalise_id_case_insensitive_of_strip_agrees "ABC" (by decide)⟩

/-! Lemmas and claims about the append pipeline. -/

/-- C1: on an empty identifier list or a list with at least one
validation error, `add_ids` returns exactly the validation error list
and issues no store call at all (no update, no timestamp refresh). -/
theorem add_ids_gated (entity_id : String) (ids : List IdDict) (supply : Nat → String)
    (h : ids = [] ∨ _validate_ids ids ≠ []) :
    add_ids entity_id ids supply = .ok (_validate_ids ids, []) := by
  rw [add_ids, if_neg]
  rintro ⟨hne, hemp⟩
  rcases h with h | h
  · exact hne (by simp [h])
  · exact h (by simpa [List.isEmpty_iff] using hemp)

/-- Witness for C1: the empty list and an invalid singleton both leave
the store untouched. -/
theorem add_ids_gated_witness :
    add_ids "e" [] (fun _ => "u") = .ok ([], []) ∧
    add_ids "e" [⟨some "", some "x"⟩] (fun _ => "u") =
      .ok (["Missing source_id_type for entry:1"], []) := by
  constructor
  · exact (add_ids_gated "e" [] (fun _ => "u") (Or.inl rfl)).trans (by rfl)
  · exact (add_ids_gated "e" [⟨some "", some "x"⟩] (fun _ => "u")
      (Or.inr (by decide))).trans (by rfl)

theorem pyFalsy_false_ne_none {o : Option String} (h : pyFalsy o = false) : o ≠ none := by
  intro hn
  subst hn
  simp [pyFalsy] at h

theorem buildStatements_ok (entity_id : String) (supply : Nat → String)
    (ids : List IdDict)
    (h : ∀ d ∈ ids, d.source_id_type ≠ none ∧ d.source_id ≠ none) : ∀ n,
    buildStatements entity_id supply n ids =
      .ok (concatAll ((List.enumFrom n ids).map (fun p =>
        ASSET_APPEND_ALSO_IDENTIFIED (Asset.normalise_id entity_id)
          (build_hub_reference (p.2.source_id_type.getD ""))
          (build_sparql_str (p.2.source_id.getD "")) (supply p.1)))) := by
  induction ids with
  | nil => intro n; rfl
  | cons d rest ih =>
    intro n
    obtain ⟨t, ht⟩ := Option.ne_none_iff_exists'.1 (h d (by simp)).1
    obtain ⟨v, hv⟩ := Option.ne_none_iff_exists'.1 (h d (by simp)).2
    have hrest := ih (fun x hx => h x (by simp [hx]))
    simp only [buildStatements, ht, hv, hrest (n + 1), List.enumFrom, List.map_cons,
      concatAll]
    rfl

/-- C5: on a non-empty identifier list that validates with zero errors,
`add_ids` issues exactly one batched update made of one append
statement per identifier — the n-th statement consuming the n-th fresh
uuid, all distinct since the uuid supply never repeats — followed by
exactly one timestamp refresh for the entity, and returns the empty
error list. -/
theorem add_ids_success (entity_id : String) (ids : List IdDict) (supply : Nat → String)
    (hne : ids ≠ []) (hval : _validate_ids ids = [])
    (hinj : Function.Injective supply) :
    add_ids entity_id ids supply =
      .ok ([], [.update (SPARQL_PREFIXES ++ INSERT_DATA
          (concatAll (ids.enum.map (fun p =>
            ASSET_APPEND_ALSO_IDENTIFIED (Asset.normalise_id entity_id)
              (build_hub_reference (p.2.source_id_type.getD ""))
              (build_sparql_str (p.2.source_id.getD "")) (supply p.1))))),
        .insertTimestamps [entity_id]]) ∧
    ((List.range ids.length).map supply).Pairwise (fun a b => a ≠ b) := by
  have hgood : ∀ d ∈ ids, pyFalsy d.source_id_type = false ∧ pyFalsy d.source_id = false :=
    (validateFrom_eq_nil_iff ids 0).1 hval
  have hpres : ∀ d ∈ ids, d.source_id_type ≠ none ∧ d.source_id ≠ none := fun d hd =>
    ⟨pyFalsy_false_ne_none (hgood d hd).1, pyFalsy_false_ne_none (hgood d hd).2⟩
  constructor
  · have hbuild := buildStatements_ok entity_id supply ids hpres 0
    rw [add_ids, if_pos ⟨by simpa [List.isEmpty_iff] using hne, by simp [hval]⟩]
    rw [_insert_ids, if_neg (by simpa [List.isEmpty_iff] using hne)]
    simp only [hbuild, hval]
    rfl
  · exact (List.pairwise_lt_range ids.length).map supply
      (fun a b hab => fun heq => Nat.ne_of_lt hab (hinj heq))

/-- A concrete injective uuid supply for the witness of C5. -/
def supplyW (n : Nat) : String :=
  ⟨List.replicate n 'a'⟩

theorem supplyW_inj : Function.Injective supplyW := by
  intro a b h
  have h2 := congrArg (fun s : String => s.data.length) h
  simpa [supplyW] using h2

/-- Witness for C5: one valid identifier appended to an entity produces
one batched update then one timestamp refresh and no error. -/
theorem add_ids_success_witness :
    add_ids "id:e" [⟨some "isbn", some "123"⟩] supplyW =
      .ok ([], [.update (SPARQL_PREFIXES ++ INSERT_DATA
          (concatAll (([(⟨some "isbn", some "123"⟩ : IdDict)].enum).map (fun p =>
            ASSET_APPEND_ALSO_IDENTIFIED (Asset.normalise_id "id:e")
              (build_hub_reference (p.2.source_id_type.getD ""))
              (build_sparql_str (p.2.source_id.getD "")) (supplyW p.1))))),
        .insertTimestamps ["id:e"]]) ∧
    ((List.range ([(⟨some "isbn", some "123"⟩ : IdDict)]).length).map supplyW).Pairwise
      (fun a b => a ≠ b) :=
  add_ids_success "id:e" [⟨some "isbn", some "123"⟩] supplyW
    (by decide) (by decide) supplyW_inj

/-! Lemmas and claims about the id-list query compiler. -/

theorem ok_bind {ε α β} (a : α) (f : α → Except ε β) :
    (Except.ok a : Except ε α) >>= f = f a := rfl

theorem map_ok {ε α β} (f : α → β) (a : α) :
    f <$> (Except.ok a : Except ε α) = Except.ok (f a) := rfl

theorem pure_except {ε α} (a : α) : (pure a : Except ε α) = Except.ok a := rfl

/-- The hub-key test the compiler partitions by. -/
def predHub (d : IdDict) : Bool :=
  d.source_id_type.getD "" == "hub_key"

theorem filterByType_true_ok (l : List IdDict)
    (h : ∀ d ∈ l, d.source_id_type ≠ none) :
    filterByType true l = .ok (l.filter predHub) := by
  induction l with
  | nil => rfl
  | cons d rest ih =>
    obtain ⟨t, ht⟩ := Option.ne_none_iff_exists'.1 (h d (by simp))
    have hrest := ih (fun x hx => h x (by simp [hx]))
    cases hp : (t == "hub_key") <;>
      simp [filterByType, ht, hrest, ok_bind, List.filter_cons, predHub, hp]

theorem filterByType_false_ok (l : List IdDict)
    (h : ∀ d ∈ l, d.source_id_type ≠ none) :
    filterByType false l = .ok (l.filter (fun d => !predHub d)) := by
  induction l with
  | nil => rfl
  | cons d rest ih =>
    obtain ⟨t, ht⟩ := Option.ne_none_iff_exists'.1 (h d (by simp))
    have hrest := ih (fun x hx => h x (by simp [hx]))
    cases hp : (t == "hub_key") <;>
      simp [filterByType, ht, hrest, ok_bind, List.filter_cons, predHub, hp]

theorem hubValues_ok (l : List IdDict) (h : ∀ d ∈ l, d.source_id ≠ none) :
    hubValues l = .ok (l.map (fun d =>
      "(" ++ Asset.normalise_id (d.source_id.getD "") ++ ")")) := by
  induction l with
  | nil => rfl
  | cons d rest ih =>
    obtain ⟨v, hv⟩ := Option.ne_none_iff_exists'.1 (h d (by simp))
    have hrest := ih (fun x hx => h x (by simp [hx]))
    simp [hubValues, hv, hrest, ok_bind]

theorem otherValues_ok (l : List IdDict)
    (h : ∀ d ∈ l, d.source_id_type ≠ none ∧ d.source_id ≠ none) :
    otherValues l = .ok (l.map (fun d =>
      "(" ++ build_hub_reference (quote_plus (d.source_id_type.getD "")) ++ " "
        ++ build_sparql_str (quote_plus (d.source_id.getD "")) ++ ")")) := by
  induction l with
  | nil => rfl
  | cons d rest ih =>
    obtain ⟨t, ht⟩ := Option.ne_none_iff_exists'.1 (h d (by simp)).1
    obtain ⟨v, hv⟩ := Option.ne_none_iff_exists'.1 (h d (by simp)).2
    have hrest := ih (fun x hx => h x (by simp [hx]))
    simp [otherValues, ht, hv, hrest, ok_bind]

/-- The hub-key sub-fragment of the compiler over a hub-key partition. -/
def hubFragment (idname : String) (hub : List IdDict) : String :=
  pyGroup (ASSET_SELECT_BY_ENTITY_ID idname (joinSep "\n" (hub.map (fun d =>
    "(" ++ Asset.normalise_id (d.source_id.getD "") ++ ")"))))

/-- The foreign-id sub-fragment of the compiler over a foreign
partition. -/
def foreignFragment (idname : String) (oth : List IdDict) : String :=
  pyGroup (ASSET_SELECT_BY_SOURCE_ID idname (joinSep "\n" (oth.map (fun d =>
    "(" ++ build_hub_reference (quote_plus (d.source_id_type.getD "")) ++ " "
      ++ build_sparql_str (quote_plus (d.source_id.getD "")) ++ ")"))))

/-- C2: on a non-empty list of identifier dictionaries (each carrying
both keys), `asset_subselect_idlist` partitions the list by
`source_id_type == "hub_key"` with `List.filter` — which preserves each
partition's relative input order — emits the hub-key sub-fragment
exactly when the hub-key partition is non-empty and the foreign
sub-fragment exactly when the other partition is non-empty, joins the
emitted sub-fragments with UNION and wraps the result in one outer
group. -/
theorem asset_subselect_idlist_spec (idlist : List IdDict) (idname : String)
    (hne : idlist ≠ [])
    (hk : ∀ d ∈ idlist, d.source_id_type ≠ none ∧ d.source_id ≠ none) :
    Asset.asset_subselect_idlist idlist idname =
      .ok (pyGroup (joinSep " UNION "
        ((if idlist.filter predHub = [] then []
          else [hubFragment idname (idlist.filter predHub)])
         ++ (if idlist.filter (fun d => !predHub d) = [] then []
          else [foreignFragment idname (idlist.filter (fun d => !predHub d))])))) := by
  have htypes : ∀ d ∈ idlist, d.source_id_type ≠ none := fun d hd => (hk d hd).1
  have hfil1 := filterByType_true_ok idlist htypes
  have hfil2 := filterByType_false_ok idlist htypes
  have hhubvals := hubValues_ok (idlist.filter predHub)
    (fun d hd => (hk d (List.mem_of_mem_filter hd)).2)
  have hothvals := otherValues_ok (idlist.filter (fun d => !predHub d))
    (fun d hd => hk d (List.mem_of_mem_filter hd))
  rw [Asset.asset_subselect_idlist, if_neg (by simpa [List.length_eq_zero] using hne)]
  by_cases hh : idlist.filter predHub = []
  · by_cases ho : idlist.filter (fun d => !predHub d) = []
    · exfalso
      obtain ⟨d, hd⟩ := List.exists_mem_of_ne_nil idlist hne
      cases hpd : predHub d with
      | true => exact absurd (hh ▸ List.mem_filter.2 ⟨hd, hpd⟩) (List.not_mem_nil d)
      | false =>
        exact absurd (ho ▸ List.mem_filter.2 ⟨hd, by simp [hpd]⟩) (List.not_mem_nil d)
    · simp [hfil1, hfil2, hh, ho, List.length_pos, hothvals, ok_bind, map_ok,
        pure_except, hubFragment, foreignFragment]
  · by_cases ho : idlist.filter (fun d => !predHub d) = []
    · simp [hfil1, hfil2, hh, ho, List.length_pos, hhubvals, ok_bind, map_ok,
        pure_except, hubFragment, foreignFragment]
    · simp [hfil1, hfil2, hh, ho, List.length_pos, hhubvals, hothvals, ok_bind,
        map_ok, pure_except, hubFragment, foreignFragment]

/-- Witness for C2 at the spec's own example: one hub key and one
foreign identifier yield both sub-fragments joined by UNION. -/
theorem asset_subselect_idlist_spec_witness :
    Asset.asset_subselect_idlist
        [⟨some "hub_key", some "abc"⟩, ⟨some "isbn", some "123"⟩] "entity" =
      .ok (pyGroup (joinSep " UNION "
        [hubFragment "entity" [⟨some "hub_key", some "abc"⟩],
         foreignFragment "entity" [⟨some "isbn", some "123"⟩]])) := by
  have h := asset_subselect_idlist_spec
    [⟨some "hub_key", some "abc"⟩, ⟨some "isbn", some "123"⟩] "entity"
    (by decide) (by decide)
  exact h.trans (by rfl)

/-- C9: the compiler rejects the empty identifier list with the
invalid-argument error and produces no fragment. -/
theorem asset_subselect_idlist_empty (idname : String) :
    Asset.asset_subselect_idlist [] idname = .error (.valueError "Invalid asset list") :=
  rfl

/-! Lemmas and claims about the paged change feed. -/

/-- The record a well-formed four-field row is mapped to: the four
named fields, the shortened `source_id_type`, and the derived
`entity_id`. -/
def goodRecord (r : List String) : List (String × String) :=
  [("entity_uri", r.getD 0 ""), ("source_id", r.getD 1 ""),
   ("source_id_type", lastSegment (r.getD 2 "")), ("last_modified", r.getD 3 ""),
   ("entity_id", lastSegment (r.getD 0 ""))]

theorem processRecord_len4 (a b c d : String) :
    processRecord [a, b, c, d] = .ok (goodRecord [a, b, c, d]) := rfl

theorem list_len4 (r : List String) (h : r.length = 4) :
    ∃ a b c d, r = [a, b, c, d] := by
  match r with
  | [a, b, c, d] => exact ⟨a, b, c, d, rfl⟩
  | [] => simp at h
  | [_] => simp at h
  | [_, _] => simp at h
  | [_, _, _] => simp at h
  | _ :: _ :: _ :: _ :: _ :: _ => simp at h

theorem processAll_ok (l : List (List String)) (h : ∀ r ∈ l, r.length = 4) :
    processAll l = .ok (l.map goodRecord) := by
  induction l with
  | nil => rfl
  | cons r rest ih =>
    obtain ⟨a, b, c, d, hr⟩ := list_len4 r (h r (by simp))
    have hrest := ih (fun x hx => h x (by simp [hx]))
    simp [processAll, hr, processRecord_len4, hrest, ok_bind]

theorem pyGet_goodRecord (r : List String) :
    pyGet "last_modified" (goodRecord r) = some (r.getD 3 "") := rfl

theorem lastD_default {α : Type} (d e : α) :
    ∀ (l : List α) (a : α), lastD d (a :: l) = lastD e (a :: l) := by
  intro l
  induction l with
  | nil => intro a; rfl
  | cons b t ih => intro a; exact ih b

theorem lastD_map {α β : Type} (f : α → β) (e : β) (d : α) :
    ∀ (l : List α) (a : α), lastD e ((a :: l).map f) = f (lastD d (a :: l)) := by
  intro l
  induction l with
  | nil => intro a; rfl
  | cons b t ih => intro a; exact ih b

/-- C6: an empty store reply makes `retrieve_paged_assets` return the
empty record list and the empty range without raising; a non-empty
reply of well-formed rows is returned as records in input order (no
re-sorting) with `modified_range` the pair of the first and last rows'
`last_modified`, and no warning is logged. -/
theorem retrieve_paged_assets_spec (qr : List (List String)) :
    (qr = [] → retrieve_paged_assets qr = ([], .ok ([], .empty))) ∧
    (qr ≠ [] → (∀ r ∈ qr, r.length = 4) →
      retrieve_paged_assets qr = ([], .ok (qr.map goodRecord,
        .range ((qr.headD []).getD 3 "") ((lastD [] qr).getD 3 "")))) := by
  constructor
  · intro h; subst h; rfl
  · intro hne hlen
    obtain ⟨a, t, rfl⟩ := List.exists_cons_of_ne_nil hne
    have hall := processAll_ok (a :: t) hlen
    rw [retrieve_paged_assets, if_neg (by simp)]
    rw [hall]
    have hhead : (((a :: t).map goodRecord).headD []) = goodRecord a := rfl
    have hlast : lastD [] ((a :: t).map goodRecord) = goodRecord (lastD a (a :: t)) :=
      lastD_map goodRecord [] a t a
    have hlast2 : lastD a (a :: t) = lastD [] (a :: t) := lastD_default a [] t a
    simp only [hhead, hlast, hlast2, pyGet_goodRecord]
    rfl

/-- Witness for C6 at the spec's three-row example with ordered
timestamps. -/
theorem retrieve_paged_assets_spec_witness :
    retrieve_paged_assets
        [["http://e/u1", "s1", "hub/t1", "2001"],
         ["http://e/u2", "s2", "hub/t2", "2002"],
         ["http://e/u3", "s3", "hub/t3", "2003"]] =
      ([], .ok ([["http://e/u1", "s1", "hub/t1", "2001"],
         ["http://e/u2", "s2", "hub/t2", "2002"],
         ["http://e/u3", "s3", "hub/t3", "2003"]].map goodRecord,
        .range "2001" "2003")) := by
  have h := (retrieve_paged_assets_spec
    [["http://e/u1", "s1", "hub/t1", "2001"],
     ["http://e/u2", "s2", "hub/t2", "2002"],
     ["http://e/u3", "s3", "hub/t3", "2003"]]).2 (by decide) (by decide)
  exact h.trans (by rfl)

/-- C7 is contradicted by the code: a store row with only three fields
(missing `last_modified`) makes `retrieve_paged_assets` log the
schema-drift warning and then raise `KeyError` on the unconditional
range lookup two lines later, instead of returning the partial
record. -/
theorem retrieve_paged_assets_short_row_raises :
    retrieve_paged_assets [["http://e/u1", "s1", "hub/t1"]] =
      ([WARN_NO_LAST_MODIFIED], .error (.keyError "last_modified")) := rfl
